import Mathlib

/-!
Verification of the video-converter worker (package `converter`).

The development shallowly embeds the two Go source files:
* the task pipeline (`Handle`, `processVideo`, `mergeChunks`, `extractNumber`,
  `logError`), and
* the data-access helpers (`IsProcessed`, `MarkProcess`, `RegisterError`).

Filesystem, process and database effects are modelled by explicit environment
records; every function is a total Lean function over those environments.
Go's `sort.Slice` (the only library call whose exact algorithm is observable
through the spec's stability claim) is embedded as the pdqsort algorithm used
by the Go standard library since Go 1.19, transcribed routine by routine.
-/

/-! ### Character and string helpers (Go `regexp`, `strconv`, `path/filepath`) -/

/-- Decimal-digit test, the character class of Go's regexp `\d`. -/
def isDigitChar (c : Char) : Bool := 48 ≤ c.toNat && c.toNat ≤ 57

/-- First maximal run of decimal digits in a character list: the result of
`regexp.MustCompile("\\d+").FindString` (leftmost match, extended greedily),
`none` when the string holds no digit (FindString returns `""`). -/
def digitRunFrom : List Char → Option (List Char)
  | [] => none
  | c :: cs =>
    if isDigitChar c then some (c :: cs.takeWhile isDigitChar) else digitRunFrom cs

/-- Numeric value of a digit string (what `strconv.Atoi` computes when in range). -/
def natOfDigits (ds : List Char) : Nat := ds.foldl (fun acc c => acc * 10 + (c.toNat - 48)) 0

/-- Largest value of Go's `int` (64-bit platforms): `strconv.Atoi` fails with
`ErrRange` above this. -/
def maxGoInt : Nat := 2 ^ 63 - 1

def dropTrailingSlashes (cs : List Char) : List Char :=
  (cs.reverse.dropWhile (fun c => c == '/')).reverse

def afterLastSlash (cs : List Char) : List Char :=
  (cs.reverse.takeWhile (fun c => c != '/')).reverse

/-- Go's `filepath.Base` (slash separators): strip trailing slashes, keep the
last path element; `"."` for the empty path, `"/"` for all-slash paths. -/
def goBase (s : String) : String :=
  if s.data = [] then "." else
  if dropTrailingSlashes s.data = [] then "/" else
  String.mk (afterLastSlash (dropTrailingSlashes s.data))

/-- Go's `filepath.Join` for a clean directory prefix and a bare file name. -/
def goJoin (dir name : String) : String :=
  if dir.data = [] then name else dir ++ "/" ++ name

/-- `extractNumber` (source part_000:110-118): take the first maximal digit run
of the base file name with `regexp` and parse it with `strconv.Atoi`; any
`Atoi` error — no digits at all, or a value exceeding the 64-bit `int`
range — yields `-1`. -/
def extractNumber (fileName : String) : Int :=
  match digitRunFrom (goBase fileName).data with
  | none => -1
  | some ds => if natOfDigits ds ≤ maxGoInt then (natOfDigits ds : Int) else -1

/-- The comparison closure passed to `sort.Slice` in `mergeChunks`
(part_000:129-131): strictly smaller extracted number first. -/
def chunkLt (x y : String) : Bool := decide (extractNumber x < extractNumber y)

/-- Whether a directory entry matches the glob pattern `*.chunk`
(`path.Match`: `*` matches any possibly-empty run of non-separator chars). -/
def matchChunk (name : String) : Bool :=
  (name.data.reverse.take 6 == (".chunk".data.reverse)) &&
  (name.data.take (name.data.length - 6)).all (fun c => c != '/')

/-- Byte-wise lexicographic comparison of character lists (Go compares
strings by raw bytes; for the ASCII names used throughout this is the code
point order). -/
def charLeNat : List Char → List Char → Bool
  | [], _ => true
  | _ :: _, [] => false
  | a :: as, b :: bs =>
    if a.toNat < b.toNat then true
    else if b.toNat < a.toNat then false
    else charLeNat as bs

/-- Byte order on file names, the order `filepath.Glob` sorts in. -/
def lexLeB (s t : String) : Bool := charLeNat s.data t.data

/-- Go's `filepath.Glob(dir ++ "/*.chunk")`: the directory's entries are
sorted lexically (byte order), the ones matching the pattern are kept, and
each is joined back onto the directory. With a well-formed fixed pattern the
`error` result of `Glob` is always `nil`, so it is not modelled. -/
def goGlob (entries : List String) (dir : String) : List String :=
  ((entries.filter matchChunk).insertionSort (fun s t => lexLeB s t = true)).map (goJoin dir)

/-! ### Go's `sort.Slice`: the pdqsort of the standard library (Go ≥ 1.19)

Transcribed from `sort/zsortfunc.go`. Loops are expressed with explicit fuel;
every fuel budget below strictly exceeds the iteration count the Go loop can
perform on the given range, so the embedding computes the same result. -/

section GoSortModel

variable {α : Type} [Inhabited α]

/-- `data.Swap(i, j)` on an array (indices are always in bounds at call sites). -/
def aswap (xs : Array α) (i j : Nat) : Array α :=
  if i < xs.size ∧ j < xs.size then
    (xs.setD i (xs.getD j default)).setD j (xs.getD i default)
  else xs

/-- `data.Less(i, j)`: the comparison closure applied at two indices. -/
def ilt (lt : α → α → Bool) (xs : Array α) (i j : Nat) : Bool :=
  lt (xs.getD i default) (xs.getD j default)

/-- Inner loop of `insertionSort_func`: `for j := i; j > a && Less(j, j-1); j--`. -/
def insInner (lt : α → α → Bool) (a : Nat) : Nat → Array α → Array α
  | 0, xs => xs
  | j+1, xs =>
    if a < j+1 ∧ ilt lt xs (j+1) j then insInner lt a j (aswap xs (j+1) j) else xs

/-- Outer loop of `insertionSort_func`: `for i := a + 1; i < b; i++`. -/
def insOuter (lt : α → α → Bool) (a b : Nat) : Nat → Nat → Array α → Array α
  | 0, _, xs => xs
  | fuel+1, i, xs => if i < b then insOuter lt a b fuel (i+1) (insInner lt a i xs) else xs

/-- `insertionSort_func(data, a, b)`. -/
def insertionSortGo (lt : α → α → Bool) (xs : Array α) (a b : Nat) : Array α :=
  insOuter lt a b (b + 1 - a) (a+1) xs

/-- First scan of `partition_func`: `for i <= j && data.Less(i, a) { i++ }`. -/
def scanI (lt : α → α → Bool) : Nat → Array α → Nat → Nat → Nat → Nat
  | 0, _, _, i, _ => i
  | f+1, xs, a, i, j => if i ≤ j ∧ ilt lt xs i a then scanI lt f xs a (i+1) j else i

/-- Second scan of `partition_func`: `for i <= j && !data.Less(j, a) { j-- }`. -/
def scanJ (lt : α → α → Bool) : Nat → Array α → Nat → Nat → Nat → Nat
  | 0, _, _, _, j => j
  | f+1, xs, a, i, j => if i ≤ j ∧ ilt lt xs j a = false then scanJ lt f xs a i (j-1) else j

/-- Main loop of `partition_func` after the first exchange. -/
def partitionLoop (lt : α → α → Bool) (a : Nat) : Nat → Array α → Nat → Nat → Array α × Nat × Bool
  | 0, xs, _, j => (xs, j, false)
  | f+1, xs, i, j =>
    let i1 := scanI lt (xs.size+1) xs a i j
    let j1 := scanJ lt (xs.size+1) xs a i1 j
    if i1 > j1 then (aswap xs j1 a, j1, false)
    else partitionLoop lt a f (aswap xs i1 j1) (i1+1) (j1-1)

/-- `partition_func(data, a, b, pivot)`: Hoare partition around the pivot;
returns the final array, the new pivot position, and whether the range was
already partitioned. -/
def partitionGo (lt : α → α → Bool) (xs0 : Array α) (a b pivot : Nat) : Array α × Nat × Bool :=
  let xs := aswap xs0 a pivot
  let i1 := scanI lt (xs.size+1) xs a (a+1) (b-1)
  let j1 := scanJ lt (xs.size+1) xs a i1 (b-1)
  if i1 > j1 then (aswap xs j1 a, j1, true)
  else partitionLoop lt a (b+1) (aswap xs i1 j1) (i1+1) (j1-1)

/-- Scan of `partitionEqual_func`: `for i <= j && !data.Less(a, i) { i++ }`. -/
def scanEqI (lt : α → α → Bool) : Nat → Array α → Nat → Nat → Nat → Nat
  | 0, _, _, i, _ => i
  | f+1, xs, a, i, j => if i ≤ j ∧ ilt lt xs a i = false then scanEqI lt f xs a (i+1) j else i

/-- Scan of `partitionEqual_func`: `for i <= j && data.Less(a, j) { j-- }`. -/
def scanEqJ (lt : α → α → Bool) : Nat → Array α → Nat → Nat → Nat → Nat
  | 0, _, _, _, j => j
  | f+1, xs, a, i, j => if i ≤ j ∧ ilt lt xs a j then scanEqJ lt f xs a i (j-1) else j

/-- Loop of `partitionEqual_func`. -/
def peLoop (lt : α → α → Bool) (a : Nat) : Nat → Array α → Nat → Nat → Array α × Nat
  | 0, xs, i, _ => (xs, i)
  | f+1, xs, i, j =>
    let i1 := scanEqI lt (xs.size+1) xs a i j
    let j1 := scanEqJ lt (xs.size+1) xs a i1 j
    if i1 > j1 then (xs, i1)
    else peLoop lt a f (aswap xs i1 j1) (i1+1) (j1-1)

/-- `partitionEqual_func(data, a, b, pivot)`: moves elements equal to the pivot
to the front, returning the first index past them. -/
def partitionEqualGo (lt : α → α → Bool) (xs0 : Array α) (a b pivot : Nat) : Array α × Nat :=
  peLoop lt a (b+1) (aswap xs0 a pivot) (a+1) (b-1)

/-- Scan of `partialInsertionSort_func`: `for i < b && !data.Less(i, i-1) { i++ }`. -/
def scanSorted (lt : α → α → Bool) : Nat → Array α → Nat → Nat → Nat
  | 0, _, i, _ => i
  | f+1, xs, i, b => if i < b ∧ ilt lt xs i (i-1) = false then scanSorted lt f xs (i+1) b else i

/-- Left shift loop of `partialInsertionSort_func`:
`for j := i - 1; j >= 1; j-- { if !Less(j, j-1) break; Swap }`. -/
def shiftLeftLoop (lt : α → α → Bool) : Nat → Array α → Nat → Array α
  | 0, xs, _ => xs
  | f+1, xs, j =>
    if 1 ≤ j then
      if ilt lt xs j (j-1) then shiftLeftLoop lt f (aswap xs j (j-1)) (j-1) else xs
    else xs

/-- Right shift loop of `partialInsertionSort_func`:
`for j := i + 1; j < b; j++ { if !Less(j, j-1) break; Swap }`. -/
def shiftRightLoop (lt : α → α → Bool) (b : Nat) : Nat → Array α → Nat → Array α
  | 0, xs, _ => xs
  | f+1, xs, j =>
    if j < b then
      if ilt lt xs j (j-1) then shiftRightLoop lt b f (aswap xs j (j-1)) (j+1) else xs
    else xs

/-- Outer loop of `partialInsertionSort_func` (`maxSteps = 5`,
`shortestShifting = 50`); returns the array and whether it ended sorted. -/
def pisLoop (lt : α → α → Bool) (a b : Nat) : Nat → Array α → Nat → Array α × Bool
  | 0, xs, _ => (xs, false)
  | steps+1, xs, i =>
    let i1 := scanSorted lt (b+1) xs i b
    if i1 = b then (xs, true)
    else if b - a < 50 then (xs, false)
    else
      let xs1 := aswap xs i1 (i1-1)
      let xs2 := if 2 ≤ i1 - a then shiftLeftLoop lt (i1+1) xs1 (i1-1) else xs1
      let xs3 := if 2 ≤ b - i1 then shiftRightLoop lt b (b+1) xs2 (i1+1) else xs2
      pisLoop lt a b steps xs3 i1

/-- `partialInsertionSort_func(data, a, b)`. -/
def partialInsertionSortGo (lt : α → α → Bool) (xs : Array α) (a b : Nat) : Array α × Bool :=
  pisLoop lt a b 5 xs (a+1)

/-- `siftDown_func(data, lo, hi, first)`. -/
def siftDownGo (lt : α → α → Bool) : Nat → Array α → Nat → Nat → Nat → Array α
  | 0, xs, _, _, _ => xs
  | f+1, xs, root, hi, first =>
    let child := 2*root + 1
    if child ≥ hi then xs
    else
      let child := if child+1 < hi ∧ ilt lt xs (first+child) (first+child+1) then child+1 else child
      if ilt lt xs (first+root) (first+child) = false then xs
      else siftDownGo lt f (aswap xs (first+root) (first+child)) child hi first

/-- Heap construction of `heapSort_func`: `for i := (hi-1)/2; i >= 0; i--`. -/
def heapBuild (lt : α → α → Bool) (hi first : Nat) : Nat → Array α → Array α
  | 0, xs => xs
  | c+1, xs => heapBuild lt hi first c (siftDownGo lt (hi+2) xs c hi first)

/-- Pop phase of `heapSort_func`: `for i := hi - 1; i >= 0; i--`. -/
def heapPop (lt : α → α → Bool) (first : Nat) : Nat → Array α → Array α
  | 0, xs => xs
  | c+1, xs => heapPop lt first c (siftDownGo lt (c+2) (aswap xs first (first+c)) 0 c first)

/-- `heapSort_func(data, a, b)`. -/
def heapSortGo (lt : α → α → Bool) (xs : Array α) (a b : Nat) : Array α :=
  heapPop lt a (b-a) (heapBuild lt (b-a) a ((b-a+1)/2) xs)

/-- One step of the `xorshift` generator of `sort`: three shift-xor rounds in
`uint64` arithmetic. -/
def xorshiftNext (r : Nat) : Nat :=
  let m := 18446744073709551616
  let r1 := (r ^^^ (r <<< 13)) % m
  let r2 := (r1 ^^^ (r1 >>> 7)) % m
  (r2 ^^^ (r2 <<< 17)) % m

/-- `bits.Len` on `uint`: position of the highest set bit. -/
def bitsLen (n : Nat) : Nat := if n = 0 then 0 else Nat.log2 n + 1

/-- One of the three swaps of `breakPatterns_func`. -/
def bpStep (a length modulus idx : Nat) (p : Array α × Nat) (i : Nat) : Array α × Nat :=
  let r := xorshiftNext p.2
  let other0 := r &&& (modulus - 1)
  let other := if other0 ≥ length then other0 - length else other0
  (aswap p.1 (idx - 1 + i) (a + other), r)

/-- `breakPatterns_func(data, a, b)`: xorshift-seeded swaps near the middle. -/
def breakPatternsGo (xs : Array α) (a b : Nat) : Array α :=
  let length := b - a
  if length ≥ 8 then
    let modulus := 1 <<< (bitsLen length)
    let idx := a + (length/4)*2 - 1
    (bpStep a length modulus idx
      (bpStep a length modulus idx
        (bpStep a length modulus idx (xs, length) 0) 1) 2).1
  else xs

/-- Hint values of `choosePivot_func`. -/
inductive GoHint
  | unknown
  | increasing
  | decreasing
deriving DecidableEq

/-- `order2_func`: order two indices by their elements, counting swaps. -/
def order2Go (lt : α → α → Bool) (xs : Array α) (a b s : Nat) : Nat × Nat × Nat :=
  if ilt lt xs b a then (b, a, s+1) else (a, b, s)

/-- `median_func`: index of the median of three elements, counting swaps. -/
def medianGo (lt : α → α → Bool) (xs : Array α) (a b c s : Nat) : Nat × Nat :=
  let p1 := order2Go lt xs a b s
  let p2 := order2Go lt xs p1.2.1 c p1.2.2
  let p3 := order2Go lt xs p1.1 p2.1 p2.2.2
  (p3.2.1, p3.2.2)

/-- `medianAdjacent_func`: median of `a-1, a, a+1`. -/
def medianAdjGo (lt : α → α → Bool) (xs : Array α) (a s : Nat) : Nat × Nat :=
  medianGo lt xs (a-1) a (a+1) s

/-- Swap-count to hint conversion at the end of `choosePivot_func`
(`maxSwaps = 12`). -/
def hintOf (s : Nat) : GoHint :=
  if s = 0 then .increasing else if s = 12 then .decreasing else .unknown

/-- `choosePivot_func(data, a, b)`: median of three (ninther above 50). -/
def choosePivotGo (lt : α → α → Bool) (xs : Array α) (a b : Nat) : Nat × GoHint :=
  let l := b - a
  let i := a + l/4*1
  let j := a + l/4*2
  let k := a + l/4*3
  if l ≥ 8 then
    if l ≥ 50 then
      let q1 := medianAdjGo lt xs i 0
      let q2 := medianAdjGo lt xs j q1.2
      let q3 := medianAdjGo lt xs k q2.2
      let m := medianGo lt xs q1.1 q2.1 q3.1 q3.2
      (m.1, hintOf m.2)
    else
      let m := medianGo lt xs i j k 0
      (m.1, hintOf m.2)
  else (j, hintOf 0)

/-- `reverseRange_func(data, a, b)`. -/
def reverseRangeGo : Nat → Array α → Nat → Nat → Array α
  | 0, xs, _, _ => xs
  | f+1, xs, i, j => if i < j then reverseRangeGo f (aswap xs i j) (i+1) (j-1) else xs

/-- `pdqsort_func(data, a, b, limit)` with its two loop-carried flags
(`wasBalanced`, `wasPartitioned`, both starting `true`); the trailing
iteration of Go's `for` loop is the tail call, recursive invocations restart
with fresh flags. -/
def pdqsortGo (lt : α → α → Bool) : Nat → Array α → Nat → Nat → Nat → Bool → Bool → Array α
  | 0, xs, _, _, _, _, _ => xs
  | fuel+1, xs, a, b, limit, wasBalanced, wasPartitioned =>
    if b - a ≤ 12 then insertionSortGo lt xs a b
    else if limit = 0 then heapSortGo lt xs a b
    else
      let xs1 := if wasBalanced = false then breakPatternsGo xs a b else xs
      let limit1 := if wasBalanced = false then limit - 1 else limit
      let pv := choosePivotGo lt xs1 a b
      let xs2 := if pv.2 = GoHint.decreasing then reverseRangeGo (b+1) xs1 a (b-1) else xs1
      let pivot := if pv.2 = GoHint.decreasing then (b-1) - (pv.1 - a) else pv.1
      let hint := if pv.2 = GoHint.decreasing then GoHint.increasing else pv.2
      let pis := if wasBalanced ∧ wasPartitioned ∧ hint = GoHint.increasing
                 then partialInsertionSortGo lt xs2 a b else (xs2, false)
      if pis.2 then pis.1
      else
        let xs3 := pis.1
        if 0 < a ∧ ilt lt xs3 (a-1) pivot = false then
          let pe := partitionEqualGo lt xs3 a b pivot
          pdqsortGo lt fuel pe.1 pe.2 b limit1 wasBalanced wasPartitioned
        else
          let pr := partitionGo lt xs3 a b pivot
          let mid := pr.2.1
          let leftLen := mid - a
          let rightLen := b - mid
          let wasBalanced2 := decide (min leftLen rightLen ≥ (b - a) / 8)
          if leftLen < rightLen then
            pdqsortGo lt fuel (pdqsortGo lt fuel pr.1 a mid limit1 true true)
              (mid+1) b limit1 wasBalanced2 pr.2.2
          else
            pdqsortGo lt fuel (pdqsortGo lt fuel pr.1 (mid+1) b limit1 true true)
              a mid limit1 wasBalanced2 pr.2.2

/-- `sort.Slice(x, less)`: pdqsort over the whole slice with
`limit = bits.Len(uint(length))`. -/
def sortSliceGo (lt : α → α → Bool) (l : List α) : List α :=
  let xs := l.toArray
  (pdqsortGo lt ((xs.size+2)*(xs.size+2)) xs 0 xs.size (bitsLen xs.size) true true).toList

end GoSortModel

/-! ### ChunkMerger: `mergeChunks` (part_000:121-155)

The merge is a pure function of a `MergeEnv`: the directory's entries, the
outcome of `os.Create`, and a per-chunk read outcome covering `os.Open` and
`output.ReadFrom(input)` (a mid-copy failure may leave a prefix of the chunk
already written). `MergeResult.artifact` is the on-disk state of the output
file when `mergeChunks` returns: `none` when it was never created, otherwise
the bytes it holds. -/

inductive ReadOutcome
  | ok (bytes : List Nat)
  | openFail (msg : String)
  | readFail (partialBytes : List Nat) (msg : String)
deriving DecidableEq

structure MergeEnv where
  dirEntries : List String
  createOk : Bool
  read : String → ReadOutcome

structure MergeResult where
  ret : Option String
  artifact : Option (List Nat)
deriving DecidableEq

/-- The copy loop of `mergeChunks` (part_000:141-153): open each chunk in
order and stream it into the output; the first `os.Open` or `ReadFrom` error
aborts with the corresponding wrapped error, leaving the bytes written so
far. No branch removes the output file. -/
def copyChunks (read : String → ReadOutcome) : List String → List Nat → Option String × List Nat
  | [], written => (none, written)
  | f :: fs, written =>
    match read f with
    | .openFail m => (some ("failed to open chunk: " ++ m), written)
    | .readFail p m =>
      (some ("failed to write chunk " ++ f ++ " to merged file: " ++ m), written ++ p)
    | .ok bs => copyChunks read fs (written ++ bs)

/-- `mergeChunks(inputDir, outputFile)` parameterized by the sorting routine
standing for `sort.Slice(chunks, less)`: glob `*.chunk`, sort by
`extractNumber`, `os.Create` the output (failing with its wrapped error and
no file), then run the copy loop. `outputFile` only names the artifact; the
artifact state is tracked in the result. -/
def mergeChunksWith (sortImpl : List String → List String) (env : MergeEnv)
    (inputDir outputFile : String) : MergeResult :=
  let sorted := sortImpl (goGlob env.dirEntries inputDir)
  if env.createOk = false then ⟨some "failed to create output file", none⟩
  else
    let r := copyChunks env.read sorted []
    ⟨r.1, some r.2⟩

/-- `mergeChunks` with the actual `sort.Slice` algorithm. -/
def mergeChunks (env : MergeEnv) (inputDir outputFile : String) : MergeResult :=
  mergeChunksWith (sortSliceGo chunkLt) env inputDir outputFile

/-- Documented contract of `sort.Slice` applied to the `mergeChunks`
comparison closure: the result is a permutation of the input in which no
later element is strictly below an earlier one. `sort.Slice` guarantees
nothing else — in particular not stability. -/
def SortSliceContract (impl : List String → List String) : Prop :=
  ∀ l : List String, (impl l).Perm l ∧ (impl l).Pairwise (fun x y => chunkLt y x = false)

/-- A reference implementation meeting the `sort.Slice` contract (used to
instantiate contract-parameterized theorems at concrete inputs). -/
def refSortChunks (l : List String) : List String :=
  l.insertionSort (fun x y => extractNumber x ≤ extractNumber y)

/-! ### Specification-side ordering predicate (for the ordering guarantee)

`specOrderedConcat entries out` renders the spec sentence "the merged
artifact is the byte-exact concatenation of the chunks' contents in ascending
order of the first maximal run of decimal digits in each base filename; no
chunk is duplicated or omitted": some permutation of the chunk set, weakly
ascending in the (unbounded) numeric value of the first digit run, flattens
to the artifact. -/

/-- Spec-side ordering key: the numeric value of the first maximal decimal
digit run of the base filename, as an unbounded natural number. -/
def specKey (name : String) : Option Nat :=
  (digitRunFrom (goBase name).data).map natOfDigits

/-- Spec-side key with a default for digitless names (the claims using this
always assume a digit run exists). -/
def specKeyVal (name : String) : Nat := (specKey name).getD 0

def specOrderedConcat (entries : List (String × List Nat)) (out : List Nat) : Prop :=
  ∃ l ∈ entries.permutations,
    List.Pairwise (fun x y : String × List Nat => specKeyVal x.1 ≤ specKeyVal y.1) l ∧
    out = (l.map Prod.snd).flatten

/-! ### TaskOrchestrator: `Handle` and `processVideo` (part_000:31-93)

`PipeEnv` extends the merge environment with the outcomes of `os.MkdirAll`,
`ffmpegCmd.CombinedOutput()` and `os.Remove`. The results record the value
returned, the `logError` records emitted, the on-disk state of the merged
file, the rows written to the `process_errors_log` table, and whether the
idempotency store was consulted (`IsProcessed`) or updated (`MarkProcess`). -/

structure ErrorLog where
  videoId : Int
  message : String
  details : String
deriving DecidableEq

structure VideoTask where
  videoId : Int
  path : String
deriving DecidableEq

structure PipeEnv where
  merge : MergeEnv
  mkdirErr : Option String
  ffmpegExit : Option Nat
  ffmpegOut : String
  launchErrMsg : String
  removeErr : Option String

/-- `logError` (part_000:96-107): builds the structured record
`{video_id, error, details, time}` and emits it via `slog.Error`. The
function writes nothing to the database — its body ends in
`// todo: register error on database` — so the model yields only the log
record. -/
def logError (task : VideoTask) (message errDetails : String) : ErrorLog :=
  ⟨task.videoId, message, errDetails⟩

/-- Result of `ffmpegCmd.CombinedOutput()` (`os/exec` semantics): the
combined stdout+stderr of the invocation and an error value that is `nil`
exactly when the process launched and exited with code zero; a non-zero exit
yields an `exec.ExitError` ("exit status N") with the output still captured,
and a launch failure yields the start error with empty captured output. -/
def combinedOutput (env : PipeEnv) : String × Option String :=
  match env.ffmpegExit with
  | none => ("", some env.launchErrMsg)
  | some 0 => (env.ffmpegOut, none)
  | some (Nat.succ c) => (env.ffmpegOut, some ("exit status " ++ toString (c+1)))

structure ProcResult where
  ret : Option String
  logs : List ErrorLog
  mergedOnDisk : Option (List Nat)
  dbErrorRecords : List String
  storeChecked : Bool
  marked : Bool
deriving DecidableEq

/-- `processVideo` (part_000:49-93): merge the chunks, create the mpeg-dash
directory, run ffmpeg, and on success remove the merged file; the first
failing stage logs via `logError` and returns its error. The code never
calls `IsProcessed` or `MarkProcess`, so `storeChecked` and `marked` are
`false` on every path, and `logError` persists nothing, so
`dbErrorRecords` is empty on every path. -/
def processVideoWith (sortImpl : List String → List String) (env : PipeEnv)
    (task : VideoTask) : ProcResult :=
  let m := mergeChunksWith sortImpl env.merge task.path (goJoin task.path "merged.mp4")
  match m.ret with
  | some e => ⟨some e, [logError task "failed to merge chunks" e], m.artifact, [], false, false⟩
  | none =>
    match env.mkdirErr with
    | some e =>
      ⟨some e, [logError task "failed to create mpeg-dash directory" e], m.artifact, [], false, false⟩
    | none =>
      match combinedOutput env with
      | (out, some e) =>
        ⟨some e, [logError task ("failed to convert video to mpeg-dash, output: " ++ out) e],
          m.artifact, [], false, false⟩
      | (_, none) =>
        match env.removeErr with
        | some e =>
          ⟨some e, [logError task "failed to remove merged file" e], m.artifact, [], false, false⟩
        | none => ⟨none, [], none, [], false, false⟩

/-- `processVideo` with the actual `sort.Slice` algorithm. -/
def processVideo (env : PipeEnv) (task : VideoTask) : ProcResult :=
  processVideoWith (sortSliceGo chunkLt) env task

/-- Outcome of `json.Unmarshal(msg, &task)`: either a decoded `VideoTask`, or
an error together with the partially-filled task value the failed unmarshal
leaves behind. -/
inductive DecodeOutcome
  | ok (task : VideoTask)
  | fail (partialTask : VideoTask) (errMsg : String)

/-- Observable result of one `Handle` invocation. `propagated` is the value
`Handle` lets escape to its caller: its Go type returns nothing and no path
panics, so it is `none` on every path. -/
structure HandleResult where
  propagated : Option String
  logs : List ErrorLog
  ranProcess : Bool
  mergedOnDisk : Option (List Nat)
  dbErrorRecords : List String
  storeChecked : Bool
  marked : Bool
deriving DecidableEq

/-- `Handle` (part_000:31-46): unmarshal the message — on error log
"failed to unmarshal task" and return — then run `processVideo` — on error
log "failed to process video" and return. -/
def HandleWith (sortImpl : List String → List String) (msg : DecodeOutcome)
    (env : PipeEnv) : HandleResult :=
  match msg with
  | .fail t e => ⟨none, [logError t "failed to unmarshal task" e], false, none, [], false, false⟩
  | .ok task =>
    let r := processVideoWith sortImpl env task
    match r.ret with
    | some e =>
      ⟨none, r.logs ++ [logError task "failed to process video" e], true, r.mergedOnDisk,
        r.dbErrorRecords, r.storeChecked, r.marked⟩
    | none =>
      ⟨none, r.logs, true, r.mergedOnDisk, r.dbErrorRecords, r.storeChecked, r.marked⟩

/-- `Handle` with the actual `sort.Slice` algorithm. -/
def Handle (msg : DecodeOutcome) (env : PipeEnv) : HandleResult :=
  HandleWith (sortSliceGo chunkLt) msg env

/-! ### IdempotencyStore and ErrorReporter data access (idempotency.go) -/

inductive SlogEvent
  | errorEvent (msg : String) (detail : String)
  | infoEvent (msg : String) (detail : String)
deriving DecidableEq

/-- Outcome of `db.QueryRow(query, videoID).Scan(&IsProcessed)`. -/
inductive DbQueryResult
  | found (b : Bool)
  | queryError (msg : String)

/-- Outcome of `db.Exec(...)`. -/
inductive DbExecResult
  | execOk
  | execFail (msg : String)

/-- `IsProcessed` (idempotency.go:11-20): scan the success-row existence
query; on a query error, log "Error checking if video is processed" and
return `false`. -/
def IsProcessed (videoId : Int) (q : DbQueryResult) : Bool × List SlogEvent :=
  match q with
  | .queryError _ => (false, [.errorEvent "Error checking if video is processed" (toString videoId)])
  | .found b => (b, [])

/-- `MarkProcess` (idempotency.go:23-31): insert the success row; on `Exec`
failure log and return the error. -/
def MarkProcess (videoId : Int) (r : DbExecResult) : Option String × List SlogEvent :=
  match r with
  | .execFail e => (some e, [.errorEvent "Error marking video as processed" (toString videoId)])
  | .execOk => (none, [])

/-- `RegisterError` (idempotency.go:34-43): marshal the error payload
(the marshal error is discarded by the code), insert it into
`process_errors_log`, and on a database failure log
"Error storing error log in database" and return; on success log an info
line. The result is the rows inserted plus the log events, wrapped in
`Except String` so that "never throws" is expressible: no path produces
`.error`. -/
def RegisterError (execResult : DbExecResult) (errorDataSerialized errMsg : String) :
    Except String (List String × List SlogEvent) :=
  match execResult with
  | .execFail dbErr =>
    .ok ([], [.errorEvent "Error storing error log in database" dbErr])
  | .execOk =>
    .ok ([errorDataSerialized], [.infoEvent "Error log stored successfully" errMsg])

/-! ### Concrete environments used by witnesses and counterexamples -/

/-- Example chunk contents: a single byte, the code of the first character of
the chunk's base name (so each chunk's contribution to the artifact is
recognizable). -/
def nameByte (f : String) : List Nat := [((goBase f).data.headD ' ').toNat]

/-- An empty chunk directory. -/
def emptyDirEnv : MergeEnv := ⟨[], true, fun _ => ReadOutcome.ok []⟩

/-- One chunk whose copy fails mid-stream after the byte `7` was written. -/
def failReadEnv : MergeEnv := ⟨["0.chunk"], true, fun _ => ReadOutcome.readFail [7] "unexpected EOF"⟩

/-- Two well-numbered chunks with distinct contents. -/
def wMergeEnv : MergeEnv := ⟨["0.chunk", "1.chunk"], true, fun f => ReadOutcome.ok (nameByte f)⟩

/-- A chunk whose 20-digit sequence number exceeds the 64-bit `int` range
next to an ordinary chunk number 5. -/
def overflowEnv : MergeEnv :=
  ⟨["10000000000000000000.chunk", "5.chunk"], true, fun f => ReadOutcome.ok (nameByte f)⟩

/-- Thirteen chunk names (13 > the 12-element insertion-sort cutoff of
pdqsort) whose embedded numbers contain duplicates; lexical order of the
names is `a2 < b1 < ... < m0`, so the glob enumeration is exactly this
list. -/
def tieNames : List String :=
  ["a2.chunk", "b1.chunk", "c5.chunk", "d1.chunk", "e0.chunk", "f9.chunk", "g5.chunk",
   "h0.chunk", "i9.chunk", "j9.chunk", "k0.chunk", "l0.chunk", "m0.chunk"]

def tieEnv : MergeEnv := ⟨tieNames, true, fun f => ReadOutcome.ok (nameByte f)⟩

/-- A fully successful pipeline environment: one chunk, mkdir succeeds,
ffmpeg exits 0, removal succeeds. -/
def happyEnv : PipeEnv :=
  ⟨⟨["0.chunk"], true, fun f => ReadOutcome.ok (nameByte f)⟩, none, some 0, "", "", none⟩

/-- Same as `happyEnv` but ffmpeg exits 1 after printing `boom`. -/
def transcodeFailEnv : PipeEnv :=
  ⟨⟨["0.chunk"], true, fun f => ReadOutcome.ok (nameByte f)⟩, none, some 1, "boom", "", none⟩

/-! ### Helper lemmas about the copy loop and the reference sort -/

/-- Whether a chunk read succeeds. -/
def readOk : ReadOutcome → Bool
  | .ok _ => true
  | .openFail _ => false
  | .readFail _ _ => false

theorem copyChunks_all_ok (read : String → ReadOutcome) (content : String → List Nat)
    (fs : List String) : ∀ w : List Nat, (∀ f ∈ fs, read f = ReadOutcome.ok (content f)) →
      copyChunks read fs w = (none, w ++ (fs.map content).flatten) := by
  induction fs with
  | nil => intro w _; simp [copyChunks]
  | cons f fs ih =>
    intro w h
    have hf : read f = ReadOutcome.ok (content f) := h f (by simp)
    have ih2 := ih (w ++ content f) (fun g hg => h g (List.mem_cons_of_mem f hg))
    simp [copyChunks, hf, ih2, List.append_assoc]

theorem copyChunks_fail (read : String → ReadOutcome) (fs : List String) :
    ∀ w : List Nat, (∃ f ∈ fs, readOk (read f) = false) →
      (copyChunks read fs w).1 ≠ none := by
  induction fs with
  | nil => intro w h; simp at h
  | cons f fs ih =>
    intro w h
    rcases h with ⟨g, hg, hgfail⟩
    rcases List.mem_cons.mp hg with rfl | hgs
    · cases hr : read g <;> simp [copyChunks, hr] <;> simp [readOk, hr] at hgfail
    · cases hr : read f with
      | ok bs => simpa [copyChunks, hr] using ih (w ++ bs) ⟨g, hgs, hgfail⟩
      | openFail m => simp [copyChunks, hr]
      | readFail p m => simp [copyChunks, hr]

theorem refSortChunks_contract : SortSliceContract refSortChunks := by
  intro l
  constructor
  · exact List.perm_insertionSort _ l
  · haveI : IsTotal String (fun x y => extractNumber x ≤ extractNumber y) :=
      ⟨fun a b => Int.le_total _ _⟩
    haveI : IsTrans String (fun x y => extractNumber x ≤ extractNumber y) :=
      ⟨fun _ _ _ hab hbc => le_trans hab hbc⟩
    have h := List.sorted_insertionSort (fun x y => extractNumber x ≤ extractNumber y) l
    refine h.imp ?_
    intro a b hab
    simp only [chunkLt, decide_eq_false_iff_not, not_lt]
    exact hab

theorem perm_pair_cases {α : Type} {l : List α} {x y : α} (h : l.Perm [x, y]) :
    l = [x, y] ∨ l = [y, x] := by
  have hlen : l.length = 2 := by simpa using h.length_eq
  rcases l with _ | ⟨a, _ | ⟨b, _ | ⟨c, l⟩⟩⟩ <;> simp at hlen
  have ha : a ∈ [x, y] := h.mem_iff.mp (by simp)
  rcases List.mem_cons.mp ha with rfl | ha2
  · left
    have hb : [b] = [y] := List.perm_singleton.mp h.cons_inv
    rw [List.cons.injEq] at hb
    rw [hb.1]
  · rcases List.mem_cons.mp ha2 with rfl | ha3
    · right
      have h2 : List.Perm [a, b] [a, x] := h.trans (List.Perm.swap a x [])
      have hb : [b] = [x] := List.perm_singleton.mp h2.cons_inv
      rw [List.cons.injEq] at hb
      rw [hb.1]
    · simp at ha3

/-! ### Claim C3 — empty enumeration -/

/-- C3 counterexample: with an empty chunk enumeration and a succeeding
`os.Create`, `mergeChunks` returns `nil` — there is no `NoChunksFound`
failure in the code — and the output artifact file exists (empty), because
`os.Create` runs before any emptiness check. -/
theorem mergeChunks_empty_counterexample :
    mergeChunks emptyDirEnv "/in" "/in/merged.mp4" = ⟨none, some []⟩ := rfl

/-- C3 amended: for every environment whose chunk enumeration is empty and
whose `os.Create` succeeds, the merge returns success (`nil` error) and
creates an empty output artifact file; no `NoChunksFound` error exists. -/
theorem mergeChunks_empty_succeeds (env : MergeEnv) (dir out : String)
    (hcreate : env.createOk = true) (hglob : goGlob env.dirEntries dir = []) :
    mergeChunks env dir out = ⟨none, some []⟩ := by
  unfold mergeChunks mergeChunksWith
  rw [hglob, hcreate]
  rfl

/-- Witness for `mergeChunks_empty_succeeds` at the concrete empty directory. -/
theorem mergeChunks_empty_succeeds_witness :
    mergeChunks emptyDirEnv "/in" "/in/merged.mp4" = ⟨none, some []⟩ :=
  mergeChunks_empty_succeeds emptyDirEnv "/in" "/in/merged.mp4" rfl rfl

/-! ### Claim C4 — mid-copy failure -/

/-- C4 counterexample: a mid-copy read failure (after the byte `7` reached
the output) aborts the merge with the wrapped error, but the partially
written artifact is NOT removed: it remains on disk holding `[7]`. -/
theorem mergeChunks_partial_counterexample :
    mergeChunks failReadEnv "/in" "/in/merged.mp4" =
      ⟨some "failed to write chunk /in/0.chunk to merged file: unexpected EOF", some [7]⟩ := rfl

/-- C4 amended: for every sorting routine meeting the `sort.Slice` contract
and every environment in which the output file was created and some
enumerated chunk fails to open or to copy, the merge returns an error, and
the partially written artifact remains on disk (no branch of `mergeChunks`
removes the output file). -/
theorem mergeChunks_failure_keeps_partial (sortImpl : List String → List String)
    (hs : SortSliceContract sortImpl) (env : MergeEnv) (dir out : String)
    (hcreate : env.createOk = true)
    (hfail : ∃ f ∈ goGlob env.dirEntries dir, readOk (env.read f) = false) :
    (mergeChunksWith sortImpl env dir out).ret ≠ none ∧
    (mergeChunksWith sortImpl env dir out).artifact ≠ none := by
  have hperm := (hs (goGlob env.dirEntries dir)).1
  rcases hfail with ⟨f, hf, hffail⟩
  constructor
  · unfold mergeChunksWith
    rw [hcreate]
    simpa using copyChunks_fail env.read (sortImpl (goGlob env.dirEntries dir)) []
      ⟨f, hperm.mem_iff.mpr hf, hffail⟩
  · unfold mergeChunksWith
    rw [hcreate]
    simp

/-- Witness for `mergeChunks_failure_keeps_partial` at the concrete failing
read. -/
theorem mergeChunks_failure_keeps_partial_witness :
    (mergeChunksWith refSortChunks failReadEnv "/in" "/in/merged.mp4").ret ≠ none ∧
    (mergeChunksWith refSortChunks failReadEnv "/in" "/in/merged.mp4").artifact ≠ none :=
  mergeChunks_failure_keeps_partial refSortChunks refSortChunks_contract failReadEnv
    "/in" "/in/merged.mp4" rfl (by decide)

/-! ### Claim C2 — idempotency store never consulted -/

/-- C2: a fully successful run of the pipeline — decode ok, merge ok, mkdir
ok, ffmpeg exit 0, merged file removed — completes without a single error
log, yet the idempotency store was never consulted (`storeChecked = false`)
and no success record was written (`marked = false`): `Handle` and
`processVideo` contain no call to `IsProcessed` or `MarkProcess`. -/
theorem pipeline_skips_idempotency_store :
    Handle (DecodeOutcome.ok ⟨1, "/in"⟩) happyEnv =
      ⟨none, [], true, none, [], false, false⟩ := rfl

/-! ### Claim C6 — failures logged but never persisted -/

/-- C6: terminal failures are logged via `logError` but never persisted:
both a decode failure and a transcode failure produce log records while the
`process_errors_log` rows (`dbErrorRecords`) stay empty — `logError`'s body
ends at `// todo: register error on database`. -/
theorem failures_not_persisted :
    (Handle (DecodeOutcome.fail ⟨0, ""⟩ "unexpected end of JSON input") happyEnv =
      ⟨none, [⟨0, "failed to unmarshal task", "unexpected end of JSON input"⟩],
        false, none, [], false, false⟩) ∧
    (Handle (DecodeOutcome.ok ⟨1, "/in"⟩) transcodeFailEnv =
      ⟨none, [⟨1, "failed to convert video to mpeg-dash, output: boom", "exit status 1"⟩,
              ⟨1, "failed to process video", "exit status 1"⟩],
        true, some [48], [], false, false⟩) :=
  ⟨rfl, rfl⟩

/-! ### Claim C8 — error reporting never throws -/

/-- C8: `RegisterError` returns normally on every input (no path yields
`.error`): when the database insert fails it only logs
"Error storing error log in database" and inserts nothing, and when the
insert succeeds it logs the info line and inserts exactly the serialized
payload. -/
theorem registerError_never_throws (dbErr data errMsg : String) :
    RegisterError (DbExecResult.execFail dbErr) data errMsg =
      Except.ok ([], [SlogEvent.errorEvent "Error storing error log in database" dbErr]) ∧
    RegisterError DbExecResult.execOk data errMsg =
      Except.ok ([data], [SlogEvent.infoEvent "Error log stored successfully" errMsg]) :=
  ⟨rfl, rfl⟩

/-! ### Claim C9 — storage outage treated as "not processed" -/

/-- C9: when the existence query inside `IsProcessed` fails, the function
logs "Error checking if video is processed" and returns `false`, so a
storage outage silently permits reprocessing. -/
theorem isProcessed_false_on_query_error (videoId : Int) (msg : String) :
    IsProcessed videoId (DbQueryResult.queryError msg) =
      (false, [SlogEvent.errorEvent "Error checking if video is processed" (toString videoId)]) :=
  rfl

/-! ### Claim C10 — the message handler returns normally -/

/-- C10: `Handle` lets nothing escape to its caller on any input
(`propagated = none` on every path), and on a decode failure it logs exactly
the "failed to unmarshal task" record and performs no processing at all. -/
theorem handle_returns_normally :
    (∀ (msg : DecodeOutcome) (env : PipeEnv), (Handle msg env).propagated = none) ∧
    (∀ (t : VideoTask) (e : String) (env : PipeEnv),
      Handle (DecodeOutcome.fail t e) env =
        ⟨none, [⟨t.videoId, "failed to unmarshal task", e⟩], false, none, [], false, false⟩) := by
  constructor
  · intro msg env
    cases msg with
    | fail t e => rfl
    | ok task =>
      unfold Handle HandleWith
      cases h : (processVideoWith (sortSliceGo chunkLt) env task).ret <;> simp [h]
  · intro t e env
    rfl

/-! ### Claim C1 — ordering guarantee -/

theorem extractNumber_of_run {f : String} {ds : List Char}
    (h : digitRunFrom (goBase f).data = some ds) (hle : natOfDigits ds ≤ maxGoInt) :
    extractNumber f = (natOfDigits ds : Int) := by
  unfold extractNumber
  rw [h]
  simp [hle]

theorem specKeyVal_of_run {f : String} {ds : List Char}
    (h : digitRunFrom (goBase f).data = some ds) : specKeyVal f = natOfDigits ds := by
  unfold specKeyVal specKey
  rw [h]
  rfl

/-- C1 (amended): for every sorting routine meeting the `sort.Slice`
contract, every environment whose reads all succeed and whose enumerated
chunk names all carry a digit run whose value fits Go's 64-bit `int`
(`strconv.Atoi`'s range), the merge succeeds and the artifact is the
byte-exact concatenation of the chunks' contents in ascending order of the
first maximal decimal digit run of each base filename, with no chunk
duplicated or omitted. -/
theorem mergeChunks_ordered (sortImpl : List String → List String)
    (hs : SortSliceContract sortImpl) (env : MergeEnv) (dir out : String)
    (content : String → List Nat)
    (hcreate : env.createOk = true)
    (hread : ∀ f, env.read f = ReadOutcome.ok (content f))
    (hdigits : ∀ f ∈ goGlob env.dirEntries dir,
      ∃ ds, digitRunFrom (goBase f).data = some ds ∧ natOfDigits ds ≤ maxGoInt) :
    (mergeChunksWith sortImpl env dir out).ret = none ∧
    (mergeChunksWith sortImpl env dir out).artifact =
      some (((sortImpl (goGlob env.dirEntries dir)).map content).flatten) ∧
    specOrderedConcat ((goGlob env.dirEntries dir).map (fun f => (f, content f)))
      (((sortImpl (goGlob env.dirEntries dir)).map content).flatten) := by
  obtain ⟨hperm, hsorted⟩ := hs (goGlob env.dirEntries dir)
  have hcopy := copyChunks_all_ok env.read content (sortImpl (goGlob env.dirEntries dir)) []
    (fun f _ => hread f)
  refine ⟨?_, ?_, ?_⟩
  · unfold mergeChunksWith
    rw [hcreate]
    simp [hcopy]
  · unfold mergeChunksWith
    rw [hcreate]
    simp [hcopy]
  · refine ⟨(sortImpl (goGlob env.dirEntries dir)).map (fun f => (f, content f)), ?_, ?_, ?_⟩
    · exact List.mem_permutations.mpr (hperm.map _)
    · rw [List.pairwise_map]
      refine List.Pairwise.imp_of_mem ?_ hsorted
      intro a b ha hb hab
      obtain ⟨da, hda, hlea⟩ := hdigits a (hperm.mem_iff.mp ha)
      obtain ⟨db, hdb, hleb⟩ := hdigits b (hperm.mem_iff.mp hb)
      rw [specKeyVal_of_run hda, specKeyVal_of_run hdb]
      have hle : extractNumber a ≤ extractNumber b := by
        simp only [chunkLt, decide_eq_false_iff_not, not_lt] at hab
        exact hab
      rw [extractNumber_of_run hda hlea, extractNumber_of_run hdb hleb] at hle
      exact_mod_cast hle
    · rw [List.map_map]
      rfl

/-- Witness for `mergeChunks_ordered` at two well-numbered chunks. -/
theorem mergeChunks_ordered_witness :
    (mergeChunksWith refSortChunks wMergeEnv "/in" "/in/merged.mp4").ret = none ∧
    (mergeChunksWith refSortChunks wMergeEnv "/in" "/in/merged.mp4").artifact =
      some (((refSortChunks (goGlob wMergeEnv.dirEntries "/in")).map nameByte).flatten) ∧
    specOrderedConcat ((goGlob wMergeEnv.dirEntries "/in").map (fun f => (f, nameByte f)))
      (((refSortChunks (goGlob wMergeEnv.dirEntries "/in")).map nameByte).flatten) :=
  mergeChunks_ordered refSortChunks refSortChunks_contract wMergeEnv "/in" "/in/merged.mp4"
    nameByte rfl (fun _ => rfl) (by
      intro f hf
      have hg : goGlob wMergeEnv.dirEntries "/in" = ["/in/0.chunk", "/in/1.chunk"] := rfl
      rw [hg] at hf
      rcases List.mem_cons.mp hf with rfl | hf2
      · exact ⟨['0'], rfl, by decide⟩
      · rcases List.mem_cons.mp hf2 with rfl | hf3
        · exact ⟨['1'], rfl, by decide⟩
        · simp at hf3)

/-- C1 counterexample: the base name `10000000000000000000.chunk` contains
the embedded decimal integer 10^19 (> 5), but its digit run overflows Go's
64-bit `int`, so `strconv.Atoi` fails and `extractNumber` yields the
sentinel `-1`: the merge succeeds with that chunk's byte (49) FIRST, while
the claim's ascending-digit-run order demands `5.chunk`'s byte (53) first —
no permutation of the chunk set that is ascending in the true digit-run
values flattens to the produced artifact. -/
theorem mergeChunks_ordered_counterexample :
    (goGlob overflowEnv.dirEntries "/in").map (fun f => (f, nameByte f)) =
      [("/in/10000000000000000000.chunk", [49]), ("/in/5.chunk", [53])] ∧
    mergeChunks overflowEnv "/in" "/in/merged.mp4" = ⟨none, some [49, 53]⟩ ∧
    ¬ specOrderedConcat
        [("/in/10000000000000000000.chunk", [49]), ("/in/5.chunk", [53])] [49, 53] := by
  refine ⟨rfl, rfl, ?_⟩
  rintro ⟨l, hmem, hpair, hout⟩
  rcases perm_pair_cases (List.mem_permutations.mp hmem) with rfl | rfl
  · have h1 := (List.pairwise_cons.mp hpair).1 ("/in/5.chunk", [53]) (by simp)
    exact absurd h1 (by decide)
  · exact absurd hout (by decide)

/-! ### Claim C5 — the chunk sort is not stable -/

set_option maxRecDepth 100000 in
/-- C5: evaluation of the pipeline's sort at thirteen chunks (13 exceeds
pdqsort's 12-element insertion-sort cutoff) with duplicate embedded
numbers. `c5.chunk` and `g5.chunk` share the ordering key 5, neither
compares below the other, and the glob enumeration (lexical order, equal
here to the original filename order) lists `c5` first — yet `sort.Slice`
emits `g5` before `c5`, and likewise scrambles the key-0 ties
(`e0,h0,k0,l0,m0` comes out `k0,m0,e0,l0,h0`): the sort is unstable, and
the merged artifact interleaves the tied chunks' bytes in that same
non-original order (byte 99 is `c5`'s content, 103 is `g5`'s). -/
theorem chunk_sort_not_stable :
    chunkLt "/in/c5.chunk" "/in/g5.chunk" = false ∧
    chunkLt "/in/g5.chunk" "/in/c5.chunk" = false ∧
    goGlob tieNames "/in" =
      ["/in/a2.chunk", "/in/b1.chunk", "/in/c5.chunk", "/in/d1.chunk", "/in/e0.chunk",
       "/in/f9.chunk", "/in/g5.chunk", "/in/h0.chunk", "/in/i9.chunk", "/in/j9.chunk",
       "/in/k0.chunk", "/in/l0.chunk", "/in/m0.chunk"] ∧
    sortSliceGo chunkLt (goGlob tieNames "/in") =
      ["/in/k0.chunk", "/in/m0.chunk", "/in/e0.chunk", "/in/l0.chunk", "/in/h0.chunk",
       "/in/b1.chunk", "/in/d1.chunk", "/in/a2.chunk", "/in/g5.chunk", "/in/c5.chunk",
       "/in/j9.chunk", "/in/i9.chunk", "/in/f9.chunk"] ∧
    (mergeChunks tieEnv "/in" "/in/merged.mp4").artifact =
      some [107, 109, 101, 108, 104, 98, 100, 97, 103, 99, 106, 105, 102] :=
  ⟨rfl, rfl, rfl, rfl, rfl⟩

/-! ### Claim C7 — transcoder success is exit code zero, output surfaced -/

/-- C7: with the earlier stages succeeding, the transcoder invocation
succeeds exactly when the process exits with code zero; on a non-zero exit
or a launch failure `processVideo` returns that error and the single
`logError` record carries the combined stdout/stderr inside its message
("failed to convert video to mpeg-dash, output: ..."); on exit code zero
(and a succeeding cleanup) the pipeline succeeds with no error log. -/
theorem transcode_success_iff_exit_zero (env : PipeEnv) (task : VideoTask)
    (hmerge : (mergeChunksWith (sortSliceGo chunkLt) env.merge task.path
        (goJoin task.path "merged.mp4")).ret = none)
    (hmkdir : env.mkdirErr = none) :
    (((combinedOutput env).2 = none) ↔ env.ffmpegExit = some 0) ∧
    (∀ out e, combinedOutput env = (out, some e) →
      (processVideo env task).ret = some e ∧
      (processVideo env task).logs =
        [⟨task.videoId, "failed to convert video to mpeg-dash, output: " ++ out, e⟩]) ∧
    (env.ffmpegExit = some 0 → env.removeErr = none →
      (processVideo env task).ret = none ∧ (processVideo env task).logs = []) := by
  refine ⟨?_, ?_, ?_⟩
  · cases h : env.ffmpegExit with
    | none => simp [combinedOutput, h]
    | some n =>
      cases n with
      | zero => simp [combinedOutput, h]
      | succ c => simp [combinedOutput, h]
  · intro out e hco
    constructor
    · simp [processVideo, processVideoWith, hmerge, hmkdir, hco]
    · simp [processVideo, processVideoWith, hmerge, hmkdir, hco, logError]
  · intro h0 hrm
    have hco : combinedOutput env = (env.ffmpegOut, none) := by
      simp [combinedOutput, h0]
    constructor
    · simp [processVideo, processVideoWith, hmerge, hmkdir, hco, hrm]
    · simp [processVideo, processVideoWith, hmerge, hmkdir, hco, hrm]

/-- Witness for `transcode_success_iff_exit_zero` at a concrete non-zero
exit with output `boom`. -/
theorem transcode_success_iff_exit_zero_witness :
    (((combinedOutput transcodeFailEnv).2 = none) ↔ transcodeFailEnv.ffmpegExit = some 0) ∧
    (∀ out e, combinedOutput transcodeFailEnv = (out, some e) →
      (processVideo transcodeFailEnv ⟨1, "/in"⟩).ret = some e ∧
      (processVideo transcodeFailEnv ⟨1, "/in"⟩).logs =
        [⟨1, "failed to convert video to mpeg-dash, output: " ++ out, e⟩]) ∧
    (transcodeFailEnv.ffmpegExit = some 0 → transcodeFailEnv.removeErr = none →
      (processVideo transcodeFailEnv ⟨1, "/in"⟩).ret = none ∧
      (processVideo transcodeFailEnv ⟨1, "/in"⟩).logs = []) :=
  transcode_success_iff_exit_zero transcodeFailEnv ⟨1, "/in"⟩ rfl rfl

